import Mathlib

/-!
Verification of `update_takeout_metadata.py` (google-photos-takeout).

The Python source is shallowly embedded below.  Strings are modelled over
their character lists (an ASCII fragment of the Unicode semantics of
Python: the regex class `\d`, `str.lower`, `str.strip` are modelled on ASCII characters,
which covers every input exercised here).  Machine-independent Python
`int` is `Int`; fallible Python code returns `Except String _` (an
uncaught exception) and the unbounded recursion in `update_exif` takes a
fuel parameter whose exhaustion is the distinguished result
`ExecResult.fuelOut`.  The external `exiftool` process is an oracle
`List String → ToolResult` mapping an argv to an exit code and output.
-/

namespace Takeout

/-! ### Characters and strings: models of the Python primitives used -/

/-- The characters stripped by Python `str.strip()` (ASCII fragment). -/
def pyIsSpace (c : Char) : Bool :=
  c = ' ' || c = '\t' || c = '\n' || c = '\r' || c = '\x0b' || c = '\x0c'

/-- Python `str.lower()` (ASCII fragment). -/
def lowerCh (c : Char) : Char :=
  if 'A' ≤ c && c ≤ 'Z' then Char.ofNat (c.toNat + 32) else c

def pyLower (s : String) : String := String.mk (s.data.map lowerCh)

/-- Python `str.strip()` with no argument. -/
def pyStrip (s : String) : String :=
  String.mk (((s.data.dropWhile pyIsSpace).reverse.dropWhile pyIsSpace).reverse)

/-- Helper for `pySplitWs`: accumulate the current word (reversed). -/
def splitWsGo : List Char → List Char → List String
  | [], acc => if acc.isEmpty then [] else [String.mk acc.reverse]
  | c :: rest, acc =>
    if pyIsSpace c then
      if acc.isEmpty then splitWsGo rest []
      else String.mk acc.reverse :: splitWsGo rest []
    else splitWsGo rest (c :: acc)

/-- Python `str.split()` with no argument: split on whitespace runs,
discarding empty fields. -/
def pySplitWs (s : String) : List String := splitWsGo s.data []

/-- Whether `n` occurs as a contiguous subsequence of `h`
(Python `needle in haystack` on strings). -/
def containsSeq : List Char → List Char → Bool
  | [], n => n.isEmpty
  | h :: t, n => List.isPrefixOf n (h :: t) || containsSeq t n

/-- Python `needle in hay` for strings. -/
def strContains (hay needle : String) : Bool := containsSeq hay.data needle.data

/-- Python `s.startswith(pre)`. -/
def strStartsWith (s pre : String) : Bool := List.isPrefixOf pre.data s.data

/-- Python `s.endswith(suf)` (used for the `*.json` glob test). -/
def strEndsWith (s suf : String) : Bool := List.isPrefixOf suf.data.reverse s.data.reverse

/-- Python `s.split(sep)` for a one-character separator, keeping empty
fields (the accumulator holds the current field reversed). -/
def splitCh (sep : Char) : List Char → List Char → List String
  | [], acc => [String.mk acc.reverse]
  | c :: rest, acc =>
    if c = sep then String.mk acc.reverse :: splitCh sep rest []
    else splitCh sep rest (c :: acc)

/-- Value of a nonempty all-digit character list, most significant first. -/
def digitsVal (l : List Char) : Option Int :=
  if l.isEmpty then none
  else if l.all Char.isDigit then
    some (l.foldl (fun a c => a * 10 + ((c.toNat : Int) - 48)) 0)
  else none

/-- Python `int(s)` on a string: optional surrounding whitespace, optional
sign, then decimal digits.  (Python additionally allows `_` separators
between digits; no input in this development uses them.) -/
def pyIntOfString (s : String) : Option Int :=
  match (pyStrip s).data with
  | '+' :: rest => digitsVal rest
  | '-' :: rest => (digitsVal rest).map (fun n => -n)
  | l => digitsVal l

/-! ### JSON values

`json.load` output restricted to the shapes the script consumes
(no arrays; an array-valued sidecar exercises none of the claims). -/

inductive Json where
  | null
  | bool (b : Bool)
  | num (q : ℚ)
  | str (s : String)
  | obj (kvs : List (String × Json))

/-- First-key lookup in the key/value list of an object (JSON objects as
produced by `json.load` have unique keys). -/
def jLookup : List (String × Json) → String → Option Json
  | [], _ => none
  | (k, v) :: rest, key => if k = key then some v else jLookup rest key

/-- Python truthiness of a JSON value. -/
def truthy : Json → Bool
  | .null => false
  | .bool b => b
  | .num q => q != 0
  | .str s => s != ""
  | .obj kvs => !kvs.isEmpty

/-- Python `key in j`: key test on dicts, substring test on strings,
`TypeError` otherwise. -/
def pyIn (key : String) : Json → Except String Bool
  | .obj kvs => .ok (jLookup kvs key).isSome
  | .str s => .ok (strContains s key)
  | _ => .error "TypeError: argument of type is not iterable"

/-- Python `j[key]`: dict subscription (`KeyError` when absent),
`TypeError` on non-dicts. -/
def pyGetItem (j : Json) (key : String) : Except String Json :=
  match j with
  | .obj kvs =>
    match jLookup kvs key with
    | some v => .ok v
    | none => .error "KeyError"
  | _ => .error "TypeError: value is not subscriptable"

/-- Python `j.get(key)`: defined on dicts (returning `None` when absent),
`AttributeError` on any other value. -/
def pyGetMeth (j : Json) (key : String) : Except String Json :=
  match j with
  | .obj kvs => .ok ((jLookup kvs key).getD .null)
  | _ => .error "AttributeError: object has no attribute get"

/-- Python `int(v)` on a JSON value: string parse, float truncation toward
zero, bools as 0/1, `TypeError` otherwise (`none` models the exception). -/
def pyToInt : Json → Option Int
  | .str s => pyIntOfString s
  | .num q => some (Int.tdiv q.num (q.den : Int))
  | .bool b => some (if b then 1 else 0)
  | _ => none

/-! ### Decimal rendering: models of `%d`-style formatting -/

def digitChar : Nat → Char
  | 0 => '0' | 1 => '1' | 2 => '2' | 3 => '3' | 4 => '4'
  | 5 => '5' | 6 => '6' | 7 => '7' | 8 => '8' | 9 => '9'
  | _ => '*'

def showNatAux : Nat → Nat → List Char
  | 0, _ => []
  | fuel + 1, n =>
    if n < 10 then [digitChar n]
    else showNatAux fuel (n / 10) ++ [digitChar (n % 10)]

/-- Decimal rendering of a natural number (no padding). -/
def showNat (n : Nat) : String := String.mk (showNatAux (n + 1) n)

/-- Python `f"{n:02d}"`. -/
def pad2 (n : Nat) : String :=
  if n < 100 then String.mk [digitChar (n / 10), digitChar (n % 10)] else showNat n

/-- Python `f"{n:04d}"`. -/
def pad4 (n : Nat) : String :=
  if n < 10000 then
    String.mk [digitChar (n / 1000), digitChar (n / 100 % 10),
               digitChar (n / 10 % 10), digitChar (n % 10)]
  else showNat n

/-- Rendering by `datetime.strftime("%Y:%m:%d %H:%M:%S")` as it behaves on
the deployment platform (CPython delegating to glibc): `%Y` renders the year *unpadded*
— a year below 1000 yields fewer than four digits — while the remaining
fields are zero-padded to width two. -/
def fmtDT (y m d h mi s : Nat) : String :=
  showNat y ++ ":" ++ pad2 m ++ ":" ++ pad2 d ++ " " ++
    pad2 h ++ ":" ++ pad2 mi ++ ":" ++ pad2 s

/-! ### The calendar: validation and `utcfromtimestamp` -/

def MONTHS : List (String × Nat) :=
  [("Jan", 1), ("Feb", 2), ("Mar", 3), ("Apr", 4), ("May", 5), ("Jun", 6),
   ("Jul", 7), ("Aug", 8), ("Sep", 9), ("Oct", 10), ("Nov", 11), ("Dec", 12)]

/-- Models `MONTHS.get(name, 0)`. -/
def monthsGet : List (String × Nat) → String → Nat
  | [], _ => 0
  | (k, v) :: rest, key => if k = key then v else monthsGet rest key

def isLeap (y : Nat) : Bool := y % 4 == 0 && (y % 100 != 0 || y % 400 == 0)

def daysInMonth (y m : Nat) : Nat :=
  if m = 2 then (if isLeap y then 29 else 28)
  else if m = 4 ∨ m = 6 ∨ m = 9 ∨ m = 11 then 30
  else 31

/-- The argument validation performed by the `datetime.datetime`
constructor (raising `ValueError` outside these bounds). -/
def validDT (y mo d h mi s : Int) : Bool :=
  decide (1 ≤ y) && decide (y ≤ 9999) && decide (1 ≤ mo) && decide (mo ≤ 12) &&
    decide (1 ≤ d) && decide (d ≤ (daysInMonth y.toNat mo.toNat : Int)) &&
    decide (0 ≤ h) && decide (h ≤ 23) && decide (0 ≤ mi) && decide (mi ≤ 59) &&
    decide (0 ≤ s) && decide (s ≤ 59)

def daysInYear (y : Nat) : Nat := if isLeap y then 366 else 365

/-- Scan years upward consuming whole years from a day count.
Structural fuel keeps the kernel able to evaluate it; `fuel ≥ n`
guarantees the scan completes (each step consumes ≥ 365 days). -/
def findYearF : Nat → Nat → Nat → Nat × Nat
  | 0, y, n => (y, n)
  | fuel + 1, y, n =>
    if n < daysInYear y then (y, n) else findYearF fuel (y + 1) (n - daysInYear y)

def monthLens (leap : Bool) : List Nat :=
  [31, if leap then 29 else 28, 31, 30, 31, 30, 31, 31, 30, 31, 30, 31]

/-- Scan month lengths consuming whole months from a day-of-year count. -/
def findMonthA : Nat → List Nat → Nat → Nat × Nat
  | m, [], n => (m, n)
  | m, len :: rest, n => if n < len then (m, n) else findMonthA (m + 1) rest (n - len)

/-- Models `datetime.datetime.utcfromtimestamp(t)` for integer `t`, returning the
proleptic-Gregorian UTC fields `(y, m, d, h, mi, s)`; `none` models the
exception raised for results outside years 1..9999.  Day 0 is 0001-01-01,
which lies 719162 days before the epoch; a 400-year cycle spans 146097
days, so the year scan fast-forwards whole cycles first (the leap-year
pattern has period 400). -/
def utcFromTimestamp (t : Int) : Option (Nat × Nat × Nat × Nat × Nat × Nat) :=
  let days := t / 86400
  let sod := (t % 86400).toNat
  let dayNum := days + 719162
  if dayNum < 0 then none
  else
    let dn := dayNum.toNat
    let cycles := dn / 146097
    let rest := dn % 146097
    let yd := findYearF (rest + 1) (1 + 400 * cycles) rest
    if 9999 < yd.1 then none
    else
      let md := findMonthA 1 (monthLens (isLeap yd.1)) yd.2
      some (yd.1, md.1, md.2 + 1, sod / 3600, sod % 3600 / 60, sod % 60)

/-! ### `parse_google_formatted` (source lines 22–34) -/

/-- Body of the `try` block of `parse_google_formatted` on a string
argument; `none` is the caught-exception / explicit-`None` result. -/
def parseFormattedCore (s : String) : Option String :=
  match pySplitWs s with
  | p0 :: p1 :: p2 :: p3 :: _ =>
    match pyIntOfString p0 with
    | none => none
    | some day =>
      match pyIntOfString p2 with
      | none => none
      | some year =>
        match splitCh ':' p3.data [] with
        | [a, b, c] =>
          match pyIntOfString a with
          | none => none
          | some h =>
            match pyIntOfString b with
            | none => none
            | some mi =>
              match pyIntOfString c with
              | none => none
              | some sec =>
                if validDT year ((monthsGet MONTHS p1 : Nat) : Int) day h mi sec then
                  some (fmtDT year.toNat (monthsGet MONTHS p1)
                    day.toNat h.toNat mi.toNat sec.toNat)
                else none
        | _ => none
  | _ => none

/-- Embeds `parse_google_formatted(date_str)`: every exception inside the `try`
(including `.strip()` on a non-string) is caught, yielding `None`. -/
def parse_google_formatted : Json → Option String
  | .str s => parseFormattedCore s
  | _ => none

/-! ### Paths and the two fallback extractors (source lines 37–54) -/

/-- A file path: its final name and the name of its parent directory. -/
structure FPath where
  name : String
  folder : String
deriving DecidableEq

/-- Suffix of a file name per `pathlib`: the part from the last
dot, provided that dot is neither the first nor the last character. -/
def suffixOf (s : String) : String :=
  let l := s.data
  let k := (l.reverse.takeWhile (fun c => c ≠ '.')).length
  if k = l.length then ""
  else if k = 0 then ""
  else if l.length - 1 - k = 0 then ""
  else String.mk (l.drop (l.length - 1 - k))

/-- Stem per `pathlib`: the name with its suffix removed. -/
def stemOf (s : String) : String :=
  String.mk (s.data.take (s.data.length - (suffixOf s).data.length))

/-- Models `file_path.with_suffix(".jpg")`. -/
def withSuffixJpg (p : FPath) : FPath := ⟨stemOf p.name ++ ".jpg", p.folder⟩

/-- The regex class `\d` (ASCII fragment), as an enumerated test. -/
def isDig (c : Char) : Bool :=
  ['0', '1', '2', '3', '4', '5', '6', '7', '8', '9'].contains c

/-- Models `re.search(r"(19|20)\d\d", folder)`: leftmost occurrence of `19` or
`20` followed by two digits, returned as the four matched characters. -/
def searchYear : List Char → Option String
  | c1 :: c2 :: c3 :: c4 :: rest =>
    if ((c1 = '1' && c2 = '9') || (c1 = '2' && c2 = '0')) && isDig c3 && isDig c4
    then some (String.mk [c1, c2, c3, c4])
    else searchYear (c2 :: c3 :: c4 :: rest)
  | _ => none

/-- Embeds `extract_date_from_folder` (lines 37–42). -/
def extract_date_from_folder (p : FPath) : Option String :=
  (searchYear p.folder.data).map (fun y => y ++ ":01:01 12:00:00")

def digitVal (c : Char) : Nat := c.toNat - 48

/-- Anchored match of `(\d\d\d\d)(\d\d)(\d\d)_(\d\d)(\d\d)(\d\d)` at the
head of the list, returning the fourteen digit characters. -/
def matchTS : List Char →
    Option (Char × Char × Char × Char × Char × Char × Char ×
            Char × Char × Char × Char × Char × Char × Char)
  | a :: b :: c :: d :: e :: f :: g :: h :: u :: i :: j :: k :: l :: m :: n :: _ =>
    if isDig a && isDig b && isDig c && isDig d && isDig e && isDig f &&
       isDig g && isDig h && u = '_' && isDig i && isDig j && isDig k &&
       isDig l && isDig m && isDig n
    then some (a, b, c, d, e, f, g, h, i, j, k, l, m, n)
    else none
  | _ => none

/-- Search as by `re.search` of the timestamp pattern: leftmost anchored match. -/
def searchTS (l : List Char) : Option (Char × Char × Char × Char × Char × Char × Char ×
    Char × Char × Char × Char × Char × Char × Char) :=
  match l with
  | [] => none
  | c :: rest =>
    match matchTS (c :: rest) with
    | some t => some t
    | none => searchTS rest

/-- Embeds `extract_date_from_filename` (lines 45–54): the matched groups are
parsed with `int` and re-rendered with `f"{y:04d}:{m:02d}:{d:02d}
{h:02d}:{mi:02d}:{s:02d}"`. -/
def extract_date_from_filename (p : FPath) : Option String :=
  match searchTS (stemOf p.name).data with
  | some (a, b, c, d, e, f, g, h, i, j, k, l, m, n) =>
    some (pad4 (1000 * digitVal a + 100 * digitVal b + 10 * digitVal c + digitVal d) ++ ":" ++
          pad2 (10 * digitVal e + digitVal f) ++ ":" ++
          pad2 (10 * digitVal g + digitVal h) ++ " " ++
          pad2 (10 * digitVal i + digitVal j) ++ ":" ++
          pad2 (10 * digitVal k + digitVal l) ++ ":" ++
          pad2 (10 * digitVal m + digitVal n))
  | none => none

/-! ### `resolve_date` (source lines 57–75) -/

/-- Lines 61–64: the `formatted` sub-field branch.  `.ok none` means the
branch fell through without returning. -/
def formattedStep (pt : Json) : Except String (Option String) :=
  match pyIn "formatted" pt with
  | .error e => .error e
  | .ok false => .ok none
  | .ok true =>
    match pyGetItem pt "formatted" with
    | .error e => .error e
    | .ok f => .ok (if truthy f then parse_google_formatted f else none)

/-- Lines 65–67: the `timestamp` sub-field branch.  `int()` failure and
`utcfromtimestamp` range errors are uncaught here (`.error`). -/
def timestampStep (pt : Json) : Except String (Option String) :=
  match pyIn "timestamp" pt with
  | .error e => .error e
  | .ok false => .ok none
  | .ok true =>
    match pyGetItem pt "timestamp" with
    | .error e => .error e
    | .ok ts =>
      if truthy ts then
        match pyToInt ts with
        | none => .error "ValueError: invalid literal for int"
        | some n =>
          match utcFromTimestamp n with
          | none => .error "ValueError: timestamp out of range"
          | some (y, m, d, h, mi, s) => .ok (some (fmtDT y m d h mi s))
      else .ok none

/-- Step 1 of `resolve_date` (lines 59–67): the sidecar branch. -/
def sidecarDate (j : Json) : Except String (Option String) :=
  if truthy j then
    match pyIn "photoTakenTime" j with
    | .error e => .error e
    | .ok false => .ok none
    | .ok true =>
      match pyGetItem j "photoTakenTime" with
      | .error e => .error e
      | .ok pt =>
        match formattedStep pt with
        | .error e => .error e
        | .ok (some d) => .ok (some d)
        | .ok none => timestampStep pt
  else .ok none

/-- Embeds `resolve_date(json_data, file_path)` (lines 57–75): sidecar, then
filename pattern, then folder year; `.ok none` models Python `None`. -/
def resolve_date (j : Json) (p : FPath) : Except String (Option String) :=
  match sidecarDate j with
  | .error e => .error e
  | .ok (some d) => .ok (some d)
  | .ok none =>
    match extract_date_from_filename p with
    | some d => .ok (some d)
    | none => .ok (extract_date_from_folder p)

/-! ### `find_matching_json` (source lines 78–87)

A directory is modelled by its listing: the list of file names in
`os.scandir` order, which is also the order `pathlib.glob` yields. -/

/-- Whether `glob("*.json")` yields this name (case-sensitive;
`pathlib.Path.glob` does not exclude dot-files). -/
def isJsonName (f : String) : Bool := strEndsWith f ".json"

/-- Embeds `find_matching_json(file_path)`: first `*.json` entry of the parent
directory whose lowercased name starts with the stripped, lowercased
name of the media file. -/
def find_matching_json (dir : List String) (p : FPath) : Option String :=
  (dir.filter isJsonName).find?
    (fun f => strStartsWith (pyLower f) (pyLower (pyStrip p.name)))

/-! ### `update_exif` (source lines 90–150) -/

/-- Result of one `subprocess.run` invocation of the external tool. -/
structure ToolResult where
  returncode : Int
  stdout : String
  stderr : String

inductive Status where
  | UPDATED
  | SKIPPED
  | FAILED
deriving DecidableEq

/-- Result of running embedded Python code: a value, an uncaught
exception, or fuel exhaustion (the source recursion has no depth guard). -/
inductive ExecResult (α : Type) where
  | ok (a : α)
  | raised (msg : String)
  | fuelOut
deriving DecidableEq

def UPDATE_FILE_TIMESTAMP : Bool := true

/-- Models `str(file_path)` for command lines. -/
def pathStr (p : FPath) : String := p.folder ++ "/" ++ p.name

/-- Models Python `str()` / f-string interpolation of a JSON scalar.
Rationals are rendered as integers when integral, else as
numerator/denominator — a simplified stand-in for float `repr`; the
claims below depend only on *which* arguments appear, not their text. -/
def pyFmt : Json → String
  | .null => "None"
  | .bool b => if b then "True" else "False"
  | .num q =>
    if q.den = 1 then
      (if q.num < 0 then "-" ++ showNat q.num.natAbs else showNat q.num.natAbs)
    else
      (if q.num < 0 then "-" ++ showNat q.num.natAbs else showNat q.num.natAbs) ++
        "/" ++ showNat q.den
  | .str s => s
  | .obj _ => "dict"

/-- Models `json_data.get("geoDataExif") or json_data.get("geoData")`
(lines 108): the second lookup is evaluated only when the first result
is falsy. -/
def geoSel (j : Json) : Except String Json :=
  match pyGetMeth j "geoDataExif" with
  | .error e => .error e
  | .ok a => if truthy a then .ok a else pyGetMeth j "geoData"

/-- Lines 108–114: the GPS flags appended to the command (empty list
when the guards fail).  Called only under `if json_data:`. -/
def gpsArgs (j : Json) : Except String (List String) :=
  match geoSel j with
  | .error e => .error e
  | .ok geo =>
    if truthy geo then
      match pyGetMeth geo "latitude" with
      | .error e => .error e
      | .ok lat =>
        match pyGetMeth geo "longitude" with
        | .error e => .error e
        | .ok lon =>
          if truthy lat && truthy lon then
            .ok ["-GPSLatitude=" ++ pyFmt lat, "-GPSLongitude=" ++ pyFmt lon]
          else .ok []
    else .ok []

/-- Lines 116–117: the description flag.  Called only under
`if json_data:`. -/
def descArgs (j : Json) : Except String (List String) :=
  match pyIn "description" j with
  | .error e => .error e
  | .ok false => .ok []
  | .ok true =>
    match pyGetItem j "description" with
    | .error e => .error e
    | .ok d => .ok (if truthy d then ["-ImageDescription=" ++ pyFmt d] else [])

/-- Lines 95–105: the fixed leading arguments of the write command. -/
def baseCmd (dateStr : String) : List String :=
  ["exiftool", "-overwrite_original", "-ignoreMinorErrors",
   "-DateTimeOriginal=" ++ dateStr, "-CreateDate=" ++ dateStr,
   "-ModifyDate=" ++ dateStr] ++
  (if UPDATE_FILE_TIMESTAMP then ["-FileModifyDate=" ++ dateStr] else [])

/-- Lines 95–119: the full argv of the write invocation. -/
def buildCmd (dateStr : String) (j : Json) (p : FPath) : Except String (List String) :=
  if truthy j then
    match gpsArgs j with
    | .error e => .error e
    | .ok g =>
      match descArgs j with
      | .error e => .error e
      | .ok ds => .ok (baseCmd dateStr ++ g ++ ds ++ [pathStr p])
  else .ok (baseCmd dateStr ++ [pathStr p])

/-- Models `shutil.move` restricted to one directory: replace an entry of the
listing, keeping its position. -/
def renameFile (dir : List String) (old new : String) : List String :=
  dir.map (fun n => if n = old then new else n)

/-- Embeds `update_exif(file_path, json_data)` (lines 90–150).  `tool` is the
external `exiftool` oracle; `dir` the listing of the directory of the file,
returned alongside the outcome triple because the HEIC/JPEG-mismatch
branch renames files in it.  The unguarded recursion of the source is
metered by `fuel`. -/
def update_exif (fuel : Nat) (tool : List String → ToolResult) (dir : List String)
    (p : FPath) (j : Json) :
    ExecResult (List String × Status × Option String × Option String) :=
  match resolve_date j p with
  | .error e => .raised e
  | .ok none => .ok (dir, .SKIPPED, none, some "No date available")
  | .ok (some dateStr) =>
    match buildCmd dateStr j p with
    | .error e => .raised e
    | .ok cmd =>
      let res := tool cmd
      let errTxt := pyStrip res.stderr
      if strContains errTxt "Not a valid HEIC" || strContains errTxt "Not a valid JPEG" then
        match fuel with
        | 0 => .fuelOut
        | f + 1 =>
          let newFile := withSuffixJpg p
          let dir1 := renameFile dir p.name newFile.name
          let dir2 :=
            if truthy j then
              match find_matching_json dir1 p with
              | some oldJson =>
                renameFile dir1 oldJson (stemOf newFile.name ++ suffixOf oldJson)
              | none => dir1
            else dir1
          update_exif f tool dir2 newFile j
      else if strContains errTxt "OtherImageStart" then
        .ok (dir, .SKIPPED, some dateStr, some errTxt)
      else if res.returncode != 0 then
        .ok (dir, .FAILED, some dateStr, some (if errTxt = "" then "Exiftool failed" else errTxt))
      else
        let v := tool ["exiftool", "-ignoreMinorErrors", "-DateTimeOriginal", "-s3", pathStr p]
        let actual := pyStrip v.stdout
        if actual != dateStr then
          .ok (dir, .FAILED, some dateStr, some ("Validation mismatch (read " ++ actual ++ ")"))
        else .ok (dir, .UPDATED, some dateStr, none)

/-! ### Digit-character helper lemmas -/

theorem isDig_elim {c : Char} (h : isDig c = true) :
    c = '0' ∨ c = '1' ∨ c = '2' ∨ c = '3' ∨ c = '4' ∨
    c = '5' ∨ c = '6' ∨ c = '7' ∨ c = '8' ∨ c = '9' := by
  simpa [isDig] using h

theorem digitVal_le {c : Char} (h : isDig c = true) : digitVal c ≤ 9 := by
  rcases isDig_elim h with rfl | rfl | rfl | rfl | rfl | rfl | rfl | rfl | rfl | rfl <;> decide

theorem digitChar_digitVal {c : Char} (h : isDig c = true) : digitChar (digitVal c) = c := by
  rcases isDig_elim h with rfl | rfl | rfl | rfl | rfl | rfl | rfl | rfl | rfl | rfl <;> rfl

theorem isDig_digitChar {n : Nat} (h : n ≤ 9) : isDig (digitChar n) = true := by
  interval_cases n <;> rfl

theorem mk_append (l m : List Char) : String.mk l ++ String.mk m = String.mk (l ++ m) := rfl

theorem pad2_digits {a b : Char} (ha : isDig a = true) (hb : isDig b = true) :
    pad2 (10 * digitVal a + digitVal b) = String.mk [a, b] := by
  have h1 := digitVal_le ha
  have h2 := digitVal_le hb
  unfold pad2
  rw [if_pos (by omega)]
  have e1 : (10 * digitVal a + digitVal b) / 10 = digitVal a := by omega
  have e2 : (10 * digitVal a + digitVal b) % 10 = digitVal b := by omega
  rw [e1, e2, digitChar_digitVal ha, digitChar_digitVal hb]

theorem pad4_digits {a b c d : Char} (ha : isDig a = true) (hb : isDig b = true)
    (hc : isDig c = true) (hd : isDig d = true) :
    pad4 (1000 * digitVal a + 100 * digitVal b + 10 * digitVal c + digitVal d) =
      String.mk [a, b, c, d] := by
  have h1 := digitVal_le ha
  have h2 := digitVal_le hb
  have h3 := digitVal_le hc
  have h4 := digitVal_le hd
  unfold pad4
  rw [if_pos (by omega)]
  have e1 : (1000 * digitVal a + 100 * digitVal b + 10 * digitVal c + digitVal d) / 1000 =
      digitVal a := by omega
  have e2 : (1000 * digitVal a + 100 * digitVal b + 10 * digitVal c + digitVal d) / 100 % 10 =
      digitVal b := by omega
  have e3 : (1000 * digitVal a + 100 * digitVal b + 10 * digitVal c + digitVal d) / 10 % 10 =
      digitVal c := by omega
  have e4 : (1000 * digitVal a + 100 * digitVal b + 10 * digitVal c + digitVal d) % 10 =
      digitVal d := by omega
  rw [e1, e2, e3, e4, digitChar_digitVal ha, digitChar_digitVal hb,
      digitChar_digitVal hc, digitChar_digitVal hd]

theorem matchTS_digits {l : List Char}
    {c1 c2 c3 c4 c5 c6 c7 c8 c9 c10 c11 c12 c13 c14 : Char}
    (h : matchTS l = some (c1, c2, c3, c4, c5, c6, c7, c8, c9, c10, c11, c12, c13, c14)) :
    isDig c1 = true ∧ isDig c2 = true ∧ isDig c3 = true ∧ isDig c4 = true ∧
    isDig c5 = true ∧ isDig c6 = true ∧ isDig c7 = true ∧ isDig c8 = true ∧
    isDig c9 = true ∧ isDig c10 = true ∧ isDig c11 = true ∧ isDig c12 = true ∧
    isDig c13 = true ∧ isDig c14 = true := by
  unfold matchTS at h
  split at h
  · split at h
    · rename_i hcond
      simp only [Bool.and_eq_true, decide_eq_true_eq] at hcond
      simp only [Option.some.injEq, Prod.mk.injEq] at h
      obtain ⟨r1, r2, r3, r4, r5, r6, r7, r8, r9, r10, r11, r12, r13, r14⟩ := h
      subst r1 r2 r3 r4 r5 r6 r7 r8 r9 r10 r11 r12 r13 r14
      tauto
    · exact absurd h (by simp)
  · exact absurd h (by simp)

theorem searchTS_digits {l : List Char}
    {c1 c2 c3 c4 c5 c6 c7 c8 c9 c10 c11 c12 c13 c14 : Char}
    (h : searchTS l = some (c1, c2, c3, c4, c5, c6, c7, c8, c9, c10, c11, c12, c13, c14)) :
    isDig c1 = true ∧ isDig c2 = true ∧ isDig c3 = true ∧ isDig c4 = true ∧
    isDig c5 = true ∧ isDig c6 = true ∧ isDig c7 = true ∧ isDig c8 = true ∧
    isDig c9 = true ∧ isDig c10 = true ∧ isDig c11 = true ∧ isDig c12 = true ∧
    isDig c13 = true ∧ isDig c14 = true := by
  induction l with
  | nil => exact absurd h (by simp [searchTS])
  | cons c rest ih =>
    rw [searchTS] at h
    cases hm : matchTS (c :: rest) with
    | some t => rw [hm] at h; exact matchTS_digits (hm.trans h)
    | none => rw [hm] at h; exact ih h

/-! ## The claims -/

/-- Claim C1 (status: code_bug).  The documented human-readable
form `D Mon YYYY, HH:MM:SS` is *never* parsed by the code: `split()`
leaves the comma attached to the year token, so `int("2023,")` raises
and `parse_google_formatted` swallows the exception into `None`.  On the
example given in the spec the resolver therefore does not return the claimed
`"2023:01:26 20:39:29"` but falls through (here to `None`); only a
comma-free variant parses. -/
theorem C1_formatted_example_fails :
    parse_google_formatted (.str "26 Jan 2023, 20:39:29") = none ∧
    parse_google_formatted (.str "26 Jan 2023, 20:39:29 UTC") = none ∧
    parse_google_formatted (.str "26 Jan 2023 20:39:29") = some "2023:01:26 20:39:29" ∧
    resolve_date (.obj [("photoTakenTime",
        .obj [("formatted", .str "26 Jan 2023, 20:39:29")])]) ⟨"file.heic", "folder"⟩ =
      .ok none :=
  ⟨rfl, rfl, rfl, rfl⟩

/-- Claim C9 (status: confirmed).  When `resolve_date` yields no date,
`update_exif` returns SKIPPED with reason "No date available", touching
nothing. -/
theorem C9_no_date_skipped (fuel : Nat) (tool : List String → ToolResult)
    (dir : List String) (p : FPath) (j : Json)
    (h : resolve_date j p = .ok none) :
    update_exif fuel tool dir p j = .ok (dir, .SKIPPED, none, some "No date available") := by
  cases fuel <;> simp [update_exif, h]

/-- Witness for C9: a file with no sidecar, no filename timestamp and no
folder year is SKIPPED with "No date available". -/
theorem C9_witness :
    update_exif 0 (fun _ => ⟨0, "", ""⟩) ["a.bin"] ⟨"a.bin", "folder"⟩ .null =
      .ok (["a.bin"], .SKIPPED, none, some "No date available") :=
  C9_no_date_skipped 0 _ _ _ _ rfl

/-- Claim C7 (status: confirmed).  When the stripped stderr of the tool
contains "OtherImageStart" (and no HEIC/JPEG-mismatch marker, which is
checked first), `update_exif` returns SKIPPED no matter the exit code. -/
theorem C7_otherimagestart_skipped (fuel : Nat) (tool : List String → ToolResult)
    (dir : List String) (p : FPath) (j : Json) (d : String) (cmd : List String)
    (hd : resolve_date j p = .ok (some d))
    (hc : buildCmd d j p = .ok cmd)
    (hm1 : strContains (pyStrip (tool cmd).stderr) "Not a valid HEIC" = false)
    (hm2 : strContains (pyStrip (tool cmd).stderr) "Not a valid JPEG" = false)
    (hmark : strContains (pyStrip (tool cmd).stderr) "OtherImageStart" = true) :
    update_exif fuel tool dir p j =
      .ok (dir, .SKIPPED, some d, some (pyStrip (tool cmd).stderr)) := by
  cases fuel <;> simp [update_exif, hd, hc, hm1, hm2, hmark]

/-- Witness for C7: exit code 1 with an "OtherImageStart" warning is
classified SKIPPED, not FAILED. -/
theorem C7_witness :
    update_exif 1 (fun _ => ⟨1, "", " OtherImageStart "⟩) ["a.jpg"] ⟨"a.jpg", "2019"⟩ .null =
      .ok (["a.jpg"], .SKIPPED, some "2019:01:01 12:00:00", some "OtherImageStart") :=
  C7_otherimagestart_skipped 1 _ _ _ _ "2019:01:01 12:00:00" _ rfl rfl rfl rfl rfl

/-- Counterexample to claim C2.  A `photoTakenTime.timestamp` that is
present and truthy but not parseable as an integer makes `resolve_date`
raise (the `int()` call on line 66 sits outside any `try`): the
exception propagates instead of falling through to the filename pattern,
which here would have produced a date. -/
theorem C2_counterexample :
    resolve_date (.obj [("photoTakenTime", .obj [("timestamp", .str "abc")])])
        ⟨"IMG_20230126_203929.jpg", "folder"⟩ =
      .error "ValueError: invalid literal for int" ∧
    extract_date_from_filename ⟨"IMG_20230126_203929.jpg", "folder"⟩ =
      some "2023:01:26 20:39:29" :=
  ⟨rfl, rfl⟩

/-- Claim C2 as amended (status: corrected).  Parse failures *inside the
formatted-field parse* are caught (`parse_google_formatted` returns
`None`) and resolution falls through — to the timestamp sub-field first
and, when that is absent or falsy, on to step 2 — but an unparseable
timestamp itself raises an exception that escapes `resolve_date`. -/
theorem C2_formatted_failure_falls_through
    (kvs pkvs : List (String × Json)) (p : FPath) (f : Json)
    (hpt : jLookup kvs "photoTakenTime" = some (.obj pkvs))
    (hf : jLookup pkvs "formatted" = some f)
    (hft : truthy f = true)
    (hparse : parse_google_formatted f = none)
    (hts : jLookup pkvs "timestamp" = none ∨
           ∃ t, jLookup pkvs "timestamp" = some t ∧ truthy t = false) :
    resolve_date (.obj kvs) p =
      .ok (match extract_date_from_filename p with
           | some d => some d
           | none => extract_date_from_folder p) := by
  have hne : kvs ≠ [] := by rintro rfl; simp [jLookup] at hpt
  have htr : truthy (Json.obj kvs) = true := by
    simpa [truthy, List.isEmpty_iff] using hne
  rw [resolve_date, sidecarDate, if_pos htr]
  simp only [pyIn, hpt, Option.isSome_some, pyGetItem]
  rw [formattedStep]
  simp only [pyIn, hf, Option.isSome_some, pyGetItem, if_pos hft, hparse]
  rw [timestampStep]
  rcases hts with hnone | ⟨t, ht, htf⟩
  · simp only [pyIn, hnone, Option.isSome_none]
    cases extract_date_from_filename p <;> rfl
  · simp only [pyIn, ht, Option.isSome_some, pyGetItem, htf, if_neg, Bool.false_eq_true,
      not_false_eq_true, if_false]
    cases extract_date_from_filename p <;> rfl

/-- Witness for the amended C2 theorem: the comma-bearing formatted value
is truthy yet unparseable; with no timestamp the resolver falls through
to the filename pattern. -/
theorem C2_witness :
    resolve_date (.obj [("photoTakenTime",
        .obj [("formatted", .str "26 Jan 2023, 20:39:29")])])
      ⟨"IMG_20230126_203929.jpg", "f"⟩ = .ok (some "2023:01:26 20:39:29") :=
  C2_formatted_failure_falls_through _ _ _ _ rfl rfl rfl rfl (Or.inl rfl)

/-- Claim C6 (status: confirmed).  When the sidecar yields no date and
the filename stem contains `\d{8}_\d{6}`, `resolve_date` returns exactly
the matched digits rearranged into canonical form: the `int()` parses of
the fixed-width groups are undone by the zero-padded re-rendering. -/
theorem C6_filename_pattern (jd : Json) (p : FPath)
    (c1 c2 c3 c4 c5 c6 c7 c8 c9 c10 c11 c12 c13 c14 : Char)
    (hs : sidecarDate jd = .ok none)
    (hm : searchTS (stemOf p.name).data =
      some (c1, c2, c3, c4, c5, c6, c7, c8, c9, c10, c11, c12, c13, c14)) :
    resolve_date jd p = .ok (some (String.mk
      [c1, c2, c3, c4, ':', c5, c6, ':', c7, c8, ' ',
       c9, c10, ':', c11, c12, ':', c13, c14])) := by
  obtain ⟨h1, h2, h3, h4, h5, h6, h7, h8, h9, h10, h11, h12, h13, h14⟩ := searchTS_digits hm
  unfold resolve_date
  rw [hs]
  unfold extract_date_from_filename
  rw [hm]
  simp only [pad4_digits h1 h2 h3 h4, pad2_digits h5 h6, pad2_digits h7 h8,
    pad2_digits h9 h10, pad2_digits h11 h12, pad2_digits h13 h14]
  rfl

/-- Witness for C6: a classic Android-style filename resolves to the
claimed canonical form. -/
theorem C6_witness :
    resolve_date .null ⟨"IMG_20230126_203929.jpg", "f"⟩ =
      .ok (some "2023:01:26 20:39:29") :=
  C6_filename_pattern .null _ '2' '0' '2' '3' '0' '1' '2' '6' '2' '0' '3' '9' '2' '9' rfl rfl

/-- Claim C5 (status: confirmed).  When the formatted branch yields no
usable date and the sidecar has a present, truthy `timestamp` holding an
integer epoch value within the `datetime` year range, `resolve_date`
returns the canonical rendering of that epoch interpreted as UTC
(`utcfromtimestamp` + `strftime`), ahead of filename and folder. -/
theorem C5_epoch_timestamp (kvs pkvs : List (String × Json)) (p : FPath)
    (ts : Json) (n : Int) (y m d h mi s : Nat)
    (hpt : jLookup kvs "photoTakenTime" = some (.obj pkvs))
    (hform : formattedStep (.obj pkvs) = .ok none)
    (hts : jLookup pkvs "timestamp" = some ts)
    (htr : truthy ts = true)
    (hint : pyToInt ts = some n)
    (hutc : utcFromTimestamp n = some (y, m, d, h, mi, s)) :
    resolve_date (.obj kvs) p = .ok (some (fmtDT y m d h mi s)) := by
  have hne : kvs ≠ [] := by rintro rfl; simp [jLookup] at hpt
  have htru : truthy (Json.obj kvs) = true := by
    simpa [truthy, List.isEmpty_iff] using hne
  rw [resolve_date, sidecarDate, if_pos htru]
  simp only [pyIn, hpt, Option.isSome_some, pyGetItem, hform]
  rw [timestampStep]
  simp only [pyIn, hts, Option.isSome_some, pyGetItem, if_pos htr, hint, hutc]

set_option maxRecDepth 4000 in
/-- Witness for C5: epoch `"0"` (a truthy string) resolves to the UTC
epoch instant in canonical form. -/
theorem C5_witness :
    resolve_date (.obj [("photoTakenTime", .obj [("timestamp", .str "0")])])
      ⟨"a.jpg", "f"⟩ = .ok (some "1970:01:01 00:00:00") :=
  C5_epoch_timestamp _ _ _ _ 0 1970 1 1 0 0 0 rfl rfl rfl rfl rfl rfl

/-- Whether a directory entry qualifies as a sidecar match for `p`:
a `*.json` name whose lowercased form starts with the lowercased,
whitespace-stripped media file name. -/
def sidecarMatch (p : FPath) (f : String) : Bool :=
  isJsonName f && strStartsWith (pyLower f) (pyLower (pyStrip p.name))

theorem find_matching_json_eq_find (dir : List String) (p : FPath) :
    find_matching_json dir p = dir.find? (sidecarMatch p) := by
  rw [find_matching_json, List.find?_filter]
  congr 1
  funext a
  simp [sidecarMatch]

/-- First-match characterization of `List.find?`. -/
theorem find_eq_some_first {α : Type} (l : List α) (q : α → Bool) (b : α) :
    l.find? q = some b ↔
      q b = true ∧ ∃ pre post, l = pre ++ b :: post ∧ ∀ g ∈ pre, q g = false := by
  induction l with
  | nil => simp
  | cons a t ih =>
    by_cases ha : q a = true
    · rw [List.find?_cons_of_pos _ ha]
      constructor
      · intro h
        obtain rfl : a = b := by simpa using h
        exact ⟨ha, [], t, rfl, by simp⟩
      · rintro ⟨hb, pre, post, heq, hpre⟩
        cases pre with
        | nil =>
          obtain ⟨rfl, rfl⟩ := List.cons.inj (by simpa using heq)
          rfl
        | cons x pre' =>
          rw [List.cons_append] at heq
          obtain ⟨rfl, rfl⟩ := List.cons.inj heq
          exact absurd ha (by simp [hpre a (List.mem_cons_self a pre')])
    · rw [List.find?_cons_of_neg _ ha]
      rw [ih]
      constructor
      · rintro ⟨hb, pre, post, rfl, hpre⟩
        refine ⟨hb, a :: pre, post, rfl, ?_⟩
        intro g hg
        rcases List.mem_cons.mp hg with rfl | hg'
        · simpa using ha
        · exact hpre g hg'
      · rintro ⟨hb, pre, post, heq, hpre⟩
        cases pre with
        | nil =>
          obtain ⟨rfl, rfl⟩ := List.cons.inj (by simpa using heq)
          exact absurd hb ha
        | cons x pre' =>
          rw [List.cons_append] at heq
          obtain ⟨rfl, rfl⟩ := List.cons.inj heq
          exact ⟨hb, pre', post, rfl, fun g hg => hpre g (List.mem_cons_of_mem _ hg)⟩

/-- Counterexample to claim C3.  `find_matching_json` strips surrounding
whitespace from the name of the media file before the prefix comparison: for
a media file named `"a.jpg "` it returns `"a.jpg.json"` although no
directory entry starts, case-insensitively, with the full name of the
media file — the claim would demand `none` here. -/
theorem C3_counterexample :
    find_matching_json ["a.jpg.json"] ⟨"a.jpg ", "d"⟩ = some "a.jpg.json" ∧
    strStartsWith (pyLower "a.jpg.json") (pyLower "a.jpg ") = false :=
  ⟨rfl, rfl⟩

/-- Claim C3 as amended (status: corrected).  `find_matching_json`
returns the first entry, in directory-listing order, bearing a `.json`
extension whose name starts — case-insensitively — with the full name of
the media file *stripped of surrounding whitespace*; it returns `none` exactly
when no entry qualifies, and with several candidates the earliest in the
listing wins. -/
theorem C3_first_json_match (dir : List String) (p : FPath) :
    (∀ f, find_matching_json dir p = some f ↔
        sidecarMatch p f = true ∧
        ∃ pre post, dir = pre ++ f :: post ∧ ∀ g ∈ pre, sidecarMatch p g = false) ∧
    (find_matching_json dir p = none ↔ ∀ f ∈ dir, sidecarMatch p f = false) := by
  constructor
  · intro f
    rw [find_matching_json_eq_find]
    exact find_eq_some_first dir (sidecarMatch p) f
  · rw [find_matching_json_eq_find, List.find?_eq_none]
    constructor
    · intro h f hf
      simpa using h f hf
    · intro h f hf
      simp [h f hf]

/-- Tool oracle for the C4 counterexample: reports the HEIC/JPEG
format-mismatch marker for the original path and succeeds (with a
matching read-back) on any other invocation. -/
def toolC4 : List String → ToolResult := fun cmd =>
  if cmd.contains "2019/IMG.HEIC" then ⟨1, "", "Not a valid HEIC (looks more like a JPEG)"⟩
  else ⟨0, "2019:01:01 12:00:00\n", ""⟩

/-- Counterexample to claim C4.  The sidecar rename sits under
`if json_data:`: when the matched sidecar parsed to a falsy value (here
the JSON literal `null`), the mismatch recovery renames the media file
to `IMG.jpg` and retries, yet leaves the matched sidecar `IMG.HEIC.json`
untouched — the claim demands it be renamed to `IMG.json`. -/
theorem C4_counterexample :
    find_matching_json ["IMG.HEIC", "IMG.HEIC.json"] ⟨"IMG.HEIC", "2019"⟩ =
      some "IMG.HEIC.json" ∧
    update_exif 2 toolC4 ["IMG.HEIC", "IMG.HEIC.json"] ⟨"IMG.HEIC", "2019"⟩ .null =
      .ok (["IMG.jpg", "IMG.HEIC.json"], .UPDATED, some "2019:01:01 12:00:00", none) :=
  ⟨rfl, rfl⟩

/-- Claim C4 as amended (status: corrected).  When the stripped stderr of
the write carries a format-mismatch marker — and the parsed sidecar data is
truthy — `update_exif` renames the media file to a `.jpg` extension,
renames the matched sidecar (if one is found) to the new stem with the
original extension of the sidecar, and its result is exactly the result of
retrying the whole operation on the renamed path. -/
theorem C4_rename_retry (fuel : Nat) (tool : List String → ToolResult)
    (dir : List String) (p : FPath) (j : Json) (d : String) (cmd : List String)
    (hj : truthy j = true)
    (hd : resolve_date j p = .ok (some d))
    (hc : buildCmd d j p = .ok cmd)
    (hmm : strContains (pyStrip (tool cmd).stderr) "Not a valid HEIC" = true ∨
           strContains (pyStrip (tool cmd).stderr) "Not a valid JPEG" = true) :
    update_exif (fuel + 1) tool dir p j =
      update_exif fuel tool
        (match find_matching_json (renameFile dir p.name (withSuffixJpg p).name) p with
         | some oldJson =>
           renameFile (renameFile dir p.name (withSuffixJpg p).name) oldJson
             (stemOf (withSuffixJpg p).name ++ suffixOf oldJson)
         | none => renameFile dir p.name (withSuffixJpg p).name)
        (withSuffixJpg p) j := by
  rcases hmm with h | h <;> simp [update_exif, hd, hc, h, hj]

/-- Witness for the amended C4 theorem: with a truthy sidecar the media
file and the sidecar are both renamed before the retry, and the overall
result is that of the retry. -/
theorem C4_witness :
    update_exif 2 toolC4 ["IMG.HEIC", "IMG.HEIC.json"] ⟨"IMG.HEIC", "2019"⟩
        (.obj [("x", .str "1")]) =
      update_exif 1 toolC4 ["IMG.jpg", "IMG.json"] ⟨"IMG.jpg", "2019"⟩
        (.obj [("x", .str "1")]) :=
  C4_rename_retry 1 toolC4 _ _ _ "2019:01:01 12:00:00" _ rfl rfl rfl (Or.inl rfl)

/-- Total dict access used in specification statements: `j[k]` on an
object with `null` default, `null` on non-objects. -/
def jGetD (j : Json) (k : String) : Json :=
  match j with
  | .obj kvs => (jLookup kvs k).getD .null
  | _ => .null

/-- The description flag list produced for an object sidecar. -/
def descOf (kvs : List (String × Json)) : List String :=
  match jLookup kvs "description" with
  | some dsc => if truthy dsc then ["-ImageDescription=" ++ pyFmt dsc] else []
  | none => []

theorem descArgs_obj (kvs : List (String × Json)) :
    descArgs (.obj kvs) = .ok (descOf kvs) := by
  rw [descArgs, descOf]
  cases h : jLookup kvs "description" <;> simp [pyIn, h, pyGetItem]

/-- Claim C8 (status: confirmed).  The GPS flags are appended to the
write command exactly when the selected geolocation object — `geoSel`
prefers a truthy `geoDataExif` over `geoData` — is truthy and has both
`latitude` and `longitude` present and truthy; since Python truthiness
treats the number 0 as false, a zero coordinate suppresses both flags. -/
theorem C8_gps_flags (dateStr : String) (kvs : List (String × Json)) (p : FPath)
    (geo : Json)
    (hgeo : geoSel (.obj kvs) = .ok geo)
    (hob : truthy geo = true → ∃ g, geo = .obj g) :
    buildCmd dateStr (.obj kvs) p =
      .ok (baseCmd dateStr ++
        (if truthy geo && truthy (jGetD geo "latitude") && truthy (jGetD geo "longitude")
         then ["-GPSLatitude=" ++ pyFmt (jGetD geo "latitude"),
               "-GPSLongitude=" ++ pyFmt (jGetD geo "longitude")]
         else []) ++ descOf kvs ++ [pathStr p]) := by
  by_cases hkvs : kvs = []
  · subst hkvs
    obtain rfl : Json.null = geo := by simpa [geoSel, pyGetMeth, jLookup] using hgeo
    rfl
  · have htr : truthy (Json.obj kvs) = true := by
      simpa [truthy, List.isEmpty_iff] using hkvs
    rw [buildCmd, if_pos htr]
    have hgps : gpsArgs (.obj kvs) =
        .ok (if truthy geo && truthy (jGetD geo "latitude") && truthy (jGetD geo "longitude")
             then ["-GPSLatitude=" ++ pyFmt (jGetD geo "latitude"),
                   "-GPSLongitude=" ++ pyFmt (jGetD geo "longitude")]
             else []) := by
      rw [gpsArgs, hgeo]
      by_cases hg : truthy geo = true
      · obtain ⟨g, rfl⟩ := hob hg
        simp only [hg, if_pos, pyGetMeth, jGetD, Bool.true_and]
        by_cases hlat : truthy ((jLookup g "latitude").getD .null) = true <;>
          by_cases hlon : truthy ((jLookup g "longitude").getD .null) = true <;>
            simp [hlat, hlon]
      · simp [hg]
    rw [hgps, descArgs_obj]

/-- Witness for C8: `geoDataExif` is present and truthy but its latitude
is the number 0, so no GPS flag is emitted. -/
theorem C8_witness :
    buildCmd "2023:01:26 20:39:29"
        (.obj [("geoDataExif", .obj [("latitude", .num 0), ("longitude", .num 12)])])
        ⟨"a.jpg", "f"⟩ =
      .ok (baseCmd "2023:01:26 20:39:29" ++ ["f/a.jpg"]) :=
  C8_gps_flags "2023:01:26 20:39:29" _ _
    (.obj [("latitude", .num 0), ("longitude", .num 12)]) rfl (fun _ => ⟨_, rfl⟩)

/-! ### Shape of resolved date strings (claim C10) -/

/-- The 15-character tail pattern `:DD:DD DD:DD:DD`. -/
def restPattern : List Char → Bool
  | [':', a, b, ':', c, d, ' ', e, f, ':', g, h, ':', i, j] =>
    isDig a && isDig b && isDig c && isDig d && isDig e && isDig f &&
    isDig g && isDig h && isDig i && isDig j
  | _ => false

/-- The full 19-character canonical shape `YYYY:MM:DD HH:MM:SS`. -/
def isCanonicalStamp (s : String) : Bool :=
  match s.data with
  | y1 :: y2 :: y3 :: y4 :: rest =>
    isDig y1 && isDig y2 && isDig y3 && isDig y4 && restPattern rest
  | _ => false

/-- The relaxed shape whose year part has 1–4 digits. -/
def isNearCanonicalStamp (s : String) : Bool :=
  let ys := s.data.takeWhile isDig
  decide (1 ≤ ys.length) && decide (ys.length ≤ 4) && restPattern (s.data.drop ys.length)

theorem data_append (a b : String) : (a ++ b).data = a.data ++ b.data := rfl

theorem restPattern_shape {r : List Char} (h : restPattern r = true) :
    ∃ a b c d e f g h i j, r = [':', a, b, ':', c, d, ' ', e, f, ':', g, h, ':', i, j] ∧
      isDig a = true ∧ isDig b = true ∧ isDig c = true ∧ isDig d = true ∧
      isDig e = true ∧ isDig f = true ∧ isDig g = true ∧ isDig h = true ∧
      isDig i = true ∧ isDig j = true := by
  unfold restPattern at h
  split at h
  · rename_i a b c d e f g i j k
    simp only [Bool.and_eq_true] at h
    exact ⟨a, b, c, d, e, f, g, i, j, k, rfl, by tauto⟩
  · exact absurd h (by simp)

theorem takeWhile_all_append {p : Char → Bool} (l1 : List Char) (c0 : Char) (l2 : List Char)
    (h1 : ∀ c ∈ l1, p c = true) (h0 : p c0 = false) :
    (l1 ++ c0 :: l2).takeWhile p = l1 := by
  induction l1 with
  | nil => simp [List.takeWhile_cons, h0]
  | cons a t ih =>
    have ha := h1 a (by simp)
    simp only [List.cons_append, List.takeWhile_cons, ha, if_true, List.cons.injEq, true_and]
    exact ih (fun c hc => h1 c (by simp [hc]))

/-- Master shape lemma: a digit block of width 1–4 followed by a
well-formed tail is near-canonical, has length `width + 15`, and is
canonical exactly when the width is 4. -/
theorem stamp_shape (ys rest : List Char) (hdig : ∀ c ∈ ys, isDig c = true)
    (h1 : 1 ≤ ys.length) (h4 : ys.length ≤ 4) (hrest : restPattern rest = true) :
    isNearCanonicalStamp (String.mk (ys ++ rest)) = true ∧
    (String.mk (ys ++ rest)).length = ys.length + 15 ∧
    ((String.mk (ys ++ rest)).length = 19 → isCanonicalStamp (String.mk (ys ++ rest)) = true) := by
  obtain ⟨a, b, c, d, e, f, g, h, i, j, rfl, d1, d2, d3, d4, d5, d6, d7, d8, d9, d10⟩ :=
    restPattern_shape hrest
  have hcolon : isDig ':' = false := rfl
  have htake : (ys ++ ':' :: [a, b, ':', c, d, ' ', e, f, ':', g, h, ':', i, j]).takeWhile isDig
      = ys := takeWhile_all_append ys ':' _ hdig hcolon
  refine ⟨?_, ?_, ?_⟩
  · rw [isNearCanonicalStamp]
    simp only [htake, List.drop_left, hrest]
    simp [h1, h4]
  · simp [String.length]
  · intro hlen
    have hys4 : ys.length = 4 := by
      have : ys.length + 15 = 19 := by simpa [String.length] using hlen
      omega
    obtain ⟨y1, y2, y3, y4, rfl⟩ : ∃ y1 y2 y3 y4, ys = [y1, y2, y3, y4] := by
      match ys, hys4 with
      | [y1, y2, y3, y4], _ => exact ⟨y1, y2, y3, y4, rfl⟩
    rw [isCanonicalStamp]
    simp only [List.cons_append, List.nil_append]
    rw [hdig y1 (by simp), hdig y2 (by simp), hdig y3 (by simp), hdig y4 (by simp), hrest]
    rfl

/-! ### Digit content of the renderings -/

theorem showNatAux_digits :
    ∀ fuel n, n < fuel → ∀ c ∈ showNatAux fuel n, isDig c = true := by
  intro fuel
  induction fuel with
  | zero => intro n hn; omega
  | succ f ih =>
    intro n _ c hc
    rw [showNatAux] at hc
    by_cases h10 : n < 10
    · rw [if_pos h10] at hc
      obtain rfl : c = digitChar n := by simpa using hc
      exact isDig_digitChar (by omega)
    · rw [if_neg h10] at hc
      rcases List.mem_append.mp hc with hmem | hmem
      · have hlt : n / 10 < f := by
          have := Nat.div_lt_self (by omega : 0 < n) (by omega : 1 < 10)
          omega
        exact ih (n / 10) hlt c hmem
      · obtain rfl : c = digitChar (n % 10) := by simpa using hmem
        exact isDig_digitChar (by omega)

theorem showNatAux_len_le :
    ∀ k fuel n, n < fuel → n < 10 ^ k → 1 ≤ k → (showNatAux fuel n).length ≤ k := by
  intro k
  induction k with
  | zero => intro fuel n _ _ h1; omega
  | succ k ih =>
    intro fuel n hfuel hk _
    cases fuel with
    | zero => omega
    | succ f =>
      rw [showNatAux]
      by_cases h10 : n < 10
      · simp [if_pos h10]
      · rw [if_neg h10]
        rcases Nat.eq_zero_or_pos k with rfl | hkpos
        · simp at hk; omega
        · have hdiv : n / 10 < 10 ^ k := by
            have h1 : n < 10 ^ (k + 1) := hk
            have h2 : (10 : Nat) ^ (k + 1) = 10 * 10 ^ k := by ring
            omega
          have hfl : n / 10 < f := by
            have := Nat.div_lt_self (by omega : 0 < n) (by omega : 1 < 10)
            omega
          have := ih f (n / 10) hfl hdiv hkpos
          simp only [List.length_append, List.length_cons, List.length_nil]
          omega

theorem showNatAux_len_pos :
    ∀ fuel n, n < fuel → 1 ≤ (showNatAux fuel n).length := by
  intro fuel n hn
  cases fuel with
  | zero => omega
  | succ f =>
    rw [showNatAux]
    by_cases h10 : n < 10
    · simp [if_pos h10]
    · rw [if_neg h10]
      simp

theorem showNat_digits (n : Nat) : ∀ c ∈ (showNat n).data, isDig c = true :=
  showNatAux_digits (n + 1) n (by omega)

theorem showNat_len_le {n k : Nat} (hk : n < 10 ^ k) (h1 : 1 ≤ k) :
    (showNat n).data.length ≤ k :=
  showNatAux_len_le k (n + 1) n (by omega) hk h1

theorem showNat_len_pos (n : Nat) : 1 ≤ (showNat n).data.length :=
  showNatAux_len_pos (n + 1) n (by omega)

theorem pad2_data {n : Nat} (h : n < 100) :
    (pad2 n).data = [digitChar (n / 10), digitChar (n % 10)] := by
  rw [pad2, if_pos h]

theorem pad4_data {n : Nat} (h : n < 10000) :
    (pad4 n).data = [digitChar (n / 1000), digitChar (n / 100 % 10),
                     digitChar (n / 10 % 10), digitChar (n % 10)] := by
  rw [pad4, if_pos h]

/-- The tail of any `fmtDT` rendering with two-digit-safe fields matches
the `:DD:DD DD:DD:DD` pattern. -/
theorem fmtDT_rest_pattern {m d h mi s : Nat} (hm : m < 100) (hd : d < 100)
    (hh : h < 100) (hmi : mi < 100) (hs : s < 100) :
    restPattern (':' :: ((pad2 m).data ++ [':'] ++ (pad2 d).data ++ [' '] ++
      (pad2 h).data ++ [':'] ++ (pad2 mi).data ++ [':'] ++ (pad2 s).data)) = true := by
  rw [pad2_data hm, pad2_data hd, pad2_data hh, pad2_data hmi, pad2_data hs]
  simp only [List.cons_append, List.nil_append]
  rw [restPattern]
  simp [isDig_digitChar (by omega : m / 10 ≤ 9), isDig_digitChar (by omega : m % 10 ≤ 9),
    isDig_digitChar (by omega : d / 10 ≤ 9), isDig_digitChar (by omega : d % 10 ≤ 9),
    isDig_digitChar (by omega : h / 10 ≤ 9), isDig_digitChar (by omega : h % 10 ≤ 9),
    isDig_digitChar (by omega : mi / 10 ≤ 9), isDig_digitChar (by omega : mi % 10 ≤ 9),
    isDig_digitChar (by omega : s / 10 ≤ 9), isDig_digitChar (by omega : s % 10 ≤ 9)]

/-- Decomposition of `fmtDT` into year digits and tail. -/
theorem fmtDT_data (y m d h mi s : Nat) :
    (fmtDT y m d h mi s).data = (showNat y).data ++
      (':' :: ((pad2 m).data ++ [':'] ++ (pad2 d).data ++ [' '] ++
        (pad2 h).data ++ [':'] ++ (pad2 mi).data ++ [':'] ++ (pad2 s).data)) := by
  simp [fmtDT, data_append]

/-- Shape facts for any `fmtDT` output with a year in 1..9999. -/
theorem fmtDT_shape {y m d h mi s : Nat} (hy1 : 1 ≤ y) (hy2 : y ≤ 9999)
    (hm : m < 100) (hd : d < 100) (hh : h < 100) (hmi : mi < 100) (hs : s < 100) :
    isNearCanonicalStamp (fmtDT y m d h mi s) = true ∧
    (fmtDT y m d h mi s).length = (showNat y).data.length + 15 ∧
    ((fmtDT y m d h mi s).length = 19 → isCanonicalStamp (fmtDT y m d h mi s) = true) := by
  have hdata : fmtDT y m d h mi s = String.mk ((showNat y).data ++
      (':' :: ((pad2 m).data ++ [':'] ++ (pad2 d).data ++ [' '] ++
        (pad2 h).data ++ [':'] ++ (pad2 mi).data ++ [':'] ++ (pad2 s).data))) := by
    rw [← fmtDT_data y m d h mi s]
  rw [hdata]
  exact stamp_shape _ _ (showNat_digits y) (showNat_len_pos y)
    (showNat_len_le (by omega) (by omega)) (fmtDT_rest_pattern hm hd hh hmi hs)

/-! ### Field bounds for each resolution branch -/

theorem parseFormattedCore_shape {src out : String} (h : parseFormattedCore src = some out) :
    ∃ y m d hh mi s : Nat, 1 ≤ y ∧ y ≤ 9999 ∧ m < 100 ∧ d < 100 ∧ hh < 100 ∧ mi < 100 ∧
      s < 100 ∧ out = fmtDT y m d hh mi s := by
  rw [parseFormattedCore] at h
  rcases hsp : pySplitWs src with _ | ⟨p0, _ | ⟨p1, _ | ⟨p2, _ | ⟨p3, rest⟩⟩⟩⟩ <;>
    simp only [hsp] at h <;> try exact Option.noConfusion h
  rcases h0 : pyIntOfString p0 with _ | day <;> simp only [h0] at h <;>
    try exact Option.noConfusion h
  rcases h2 : pyIntOfString p2 with _ | year <;> simp only [h2] at h <;>
    try exact Option.noConfusion h
  rcases hsc : splitCh ':' p3.data [] with _ | ⟨a, _ | ⟨b, _ | ⟨c, _ | ⟨x, t⟩⟩⟩⟩ <;>
    simp only [hsc] at h <;> try exact Option.noConfusion h
  rcases ha : pyIntOfString a with _ | hv <;> simp only [ha] at h <;>
    try exact Option.noConfusion h
  rcases hb : pyIntOfString b with _ | miv <;> simp only [hb] at h <;>
    try exact Option.noConfusion h
  rcases hc : pyIntOfString c with _ | sv <;> simp only [hc] at h <;>
    try exact Option.noConfusion h
  split at h
  · rename_i hvd
    obtain rfl : fmtDT year.toNat (monthsGet MONTHS p1) day.toNat hv.toNat miv.toNat sv.toNat
        = out := by simpa using h
    simp only [validDT, Bool.and_eq_true, decide_eq_true_eq] at hvd
    obtain ⟨⟨⟨⟨⟨⟨⟨⟨⟨⟨⟨b1, b2⟩, b3⟩, b4⟩, b5⟩, b6⟩, b7⟩, b8⟩, b9⟩, b10⟩, b11⟩, b12⟩ := hvd
    have hdm : daysInMonth year.toNat (monthsGet MONTHS p1) ≤ 31 := by
      rw [daysInMonth]
      split
      · split <;> omega
      · split <;> omega
    have hcast : ((monthsGet MONTHS p1 : Nat) : Int).toNat = monthsGet MONTHS p1 := by omega
    rw [hcast] at b6
    exact ⟨year.toNat, monthsGet MONTHS p1, day.toNat, hv.toNat, miv.toNat, sv.toNat,
      by omega, by omega, by omega, by omega, by omega, by omega, by omega, rfl⟩
  · exact Option.noConfusion h

theorem findYearF_ge : ∀ fuel y n, y ≤ (findYearF fuel y n).1 := by
  intro fuel
  induction fuel with
  | zero => intro y n; simp [findYearF]
  | succ f ih =>
    intro y n
    rw [findYearF]
    by_cases hn : n < daysInYear y
    · simp [hn]
    · rw [if_neg hn]
      exact le_trans (by omega) (ih (y + 1) (n - daysInYear y))

theorem daysInYear_ge (y : Nat) : 365 ≤ daysInYear y := by
  rw [daysInYear]; split <;> omega

theorem findYearF_rem :
    ∀ fuel n y, n ≤ fuel → (findYearF fuel y n).2 < daysInYear (findYearF fuel y n).1 := by
  intro fuel
  induction fuel with
  | zero =>
    intro n y hn
    obtain rfl : n = 0 := by omega
    have := daysInYear_ge y
    simp [findYearF]
    omega
  | succ f ih =>
    intro n y hn
    rw [findYearF]
    by_cases hlt : n < daysInYear y
    · simp only [if_pos hlt]
      exact hlt
    · rw [if_neg hlt]
      exact ih _ _ (by have := daysInYear_ge y; omega)

theorem findMonthA_le : ∀ lens m n, (findMonthA m lens n).1 ≤ m + lens.length := by
  intro lens
  induction lens with
  | nil => intro m n; simp [findMonthA]
  | cons L rest ih =>
    intro m n
    rw [findMonthA]
    by_cases hlt : n < L
    · simp [hlt]
    · rw [if_neg hlt]
      have := ih (m + 1) (n - L)
      simp only [List.length_cons]
      omega

theorem findMonthA_rem :
    ∀ lens m n, n < lens.sum → ∃ L ∈ lens, (findMonthA m lens n).2 < L := by
  intro lens
  induction lens with
  | nil => intro m n hn; simp at hn
  | cons L rest ih =>
    intro m n hn
    rw [findMonthA]
    by_cases hlt : n < L
    · exact ⟨L, by simp, by simp only [if_pos hlt]; exact hlt⟩
    · rw [if_neg hlt]
      have hsum : n - L < rest.sum := by
        simp only [List.sum_cons] at hn
        omega
      obtain ⟨L', hmem, hL'⟩ := ih (m + 1) (n - L) hsum
      exact ⟨L', by simp [hmem], hL'⟩

theorem monthLens_sum (y : Nat) : (monthLens (isLeap y)).sum = daysInYear y := by
  rw [daysInYear]
  cases h : isLeap y <;> simp [monthLens]

theorem monthLens_le {b : Bool} {L : Nat} (h : L ∈ monthLens b) : L ≤ 31 := by
  cases b <;> simp [monthLens] at h <;> omega

theorem utcFromTimestamp_shape {t : Int} {y m d hh mi s : Nat}
    (h : utcFromTimestamp t = some (y, m, d, hh, mi, s)) :
    1 ≤ y ∧ y ≤ 9999 ∧ m < 100 ∧ d < 100 ∧ hh < 100 ∧ mi < 100 ∧ s < 100 := by
  simp only [utcFromTimestamp] at h
  split at h
  · exact absurd h (by simp)
  · split at h
    · exact absurd h (by simp)
    · rename_i hneg hy
      simp only [Option.some.injEq, Prod.mk.injEq] at h
      obtain ⟨rfl, rfl, rfl, rfl, rfl, rfl⟩ := h
      push_neg at hy
      have hge := findYearF_ge ((t / 86400 + 719162).toNat % 146097 + 1)
        (1 + 400 * ((t / 86400 + 719162).toNat / 146097))
        ((t / 86400 + 719162).toNat % 146097)
      have hrem := findYearF_rem ((t / 86400 + 719162).toNat % 146097 + 1)
        ((t / 86400 + 719162).toNat % 146097)
        (1 + 400 * ((t / 86400 + 719162).toNat / 146097)) (by omega)
      rw [← monthLens_sum] at hrem
      have hmle := findMonthA_le
        (monthLens (isLeap (findYearF ((t / 86400 + 719162).toNat % 146097 + 1)
          (1 + 400 * ((t / 86400 + 719162).toNat / 146097))
          ((t / 86400 + 719162).toNat % 146097)).1)) 1
        (findYearF ((t / 86400 + 719162).toNat % 146097 + 1)
          (1 + 400 * ((t / 86400 + 719162).toNat / 146097))
          ((t / 86400 + 719162).toNat % 146097)).2
      obtain ⟨L, hLmem, hLlt⟩ := findMonthA_rem _ 1 _ hrem
      have hL31 := monthLens_le hLmem
      have hlen : ∀ b : Bool, (monthLens b).length = 12 := by intro b; cases b <;> rfl
      rw [hlen] at hmle
      have he0 : 0 ≤ t % 86400 := Int.emod_nonneg t (by norm_num)
      have he1 : t % 86400 < 86400 := Int.emod_lt_of_pos t (by norm_num)
      have hsod : (t % 86400).toNat < 86400 := by omega
      refine ⟨by omega, by omega, by omega, by omega, by omega, by omega, by omega⟩

/-- Decomposition of the filename-tier rendering. -/
theorem pads_data (v m d hh mi s : Nat) :
    (pad4 v ++ ":" ++ pad2 m ++ ":" ++ pad2 d ++ " " ++
      pad2 hh ++ ":" ++ pad2 mi ++ ":" ++ pad2 s).data = (pad4 v).data ++
      (':' :: ((pad2 m).data ++ [':'] ++ (pad2 d).data ++ [' '] ++
        (pad2 hh).data ++ [':'] ++ (pad2 mi).data ++ [':'] ++ (pad2 s).data)) := by
  simp [data_append]

/-- The filename-tier rendering is always fully canonical: its year
block is zero-padded to exactly four digits. -/
theorem pads_shape {v m d hh mi s : Nat} (hv : v < 10000) (hm : m < 100) (hd : d < 100)
    (hhh : hh < 100) (hmi : mi < 100) (hs : s < 100) :
    isNearCanonicalStamp (pad4 v ++ ":" ++ pad2 m ++ ":" ++ pad2 d ++ " " ++
      pad2 hh ++ ":" ++ pad2 mi ++ ":" ++ pad2 s) = true ∧
    (pad4 v ++ ":" ++ pad2 m ++ ":" ++ pad2 d ++ " " ++
      pad2 hh ++ ":" ++ pad2 mi ++ ":" ++ pad2 s).length = 19 ∧
    isCanonicalStamp (pad4 v ++ ":" ++ pad2 m ++ ":" ++ pad2 d ++ " " ++
      pad2 hh ++ ":" ++ pad2 mi ++ ":" ++ pad2 s) = true := by
  have hdata : (pad4 v ++ ":" ++ pad2 m ++ ":" ++ pad2 d ++ " " ++
      pad2 hh ++ ":" ++ pad2 mi ++ ":" ++ pad2 s) = String.mk ((pad4 v).data ++
      (':' :: ((pad2 m).data ++ [':'] ++ (pad2 d).data ++ [' '] ++
        (pad2 hh).data ++ [':'] ++ (pad2 mi).data ++ [':'] ++ (pad2 s).data))) := by
    rw [← pads_data v m d hh mi s]
  rw [hdata]
  have hy4 : (pad4 v).data.length = 4 := by rw [pad4_data hv]; rfl
  have := stamp_shape ((pad4 v).data) _ (by
      rw [pad4_data hv]
      intro c hc
      simp only [List.mem_cons, List.not_mem_nil, or_false] at hc
      rcases hc with rfl | rfl | rfl | rfl
      · exact isDig_digitChar (by omega)
      · exact isDig_digitChar (by omega)
      · exact isDig_digitChar (by omega)
      · exact isDig_digitChar (by omega))
    (by omega) (by omega) (fmtDT_rest_pattern hm hd hhh hmi hs)
  obtain ⟨hnear, hlen15, hcanon⟩ := this
  have hlen : (String.mk ((pad4 v).data ++
      (':' :: ((pad2 m).data ++ [':'] ++ (pad2 d).data ++ [' '] ++
        (pad2 hh).data ++ [':'] ++ (pad2 mi).data ++ [':'] ++ (pad2 s).data)))).length = 19 := by
    omega
  exact ⟨hnear, hlen, hcanon hlen⟩

theorem extract_filename_canonical {p : FPath} {s : String}
    (h : extract_date_from_filename p = some s) :
    isNearCanonicalStamp s = true ∧ s.length = 19 ∧ isCanonicalStamp s = true := by
  rw [extract_date_from_filename] at h
  rcases hm : searchTS (stemOf p.name).data with _ |
      ⟨c1, c2, c3, c4, c5, c6, c7, c8, c9, c10, c11, c12, c13, c14⟩ <;>
    simp only [hm] at h <;> try exact Option.noConfusion h
  obtain ⟨d1, d2, d3, d4, d5, d6, d7, d8, d9, d10, d11, d12, d13, d14⟩ := searchTS_digits hm
  obtain rfl : pad4 (1000 * digitVal c1 + 100 * digitVal c2 + 10 * digitVal c3 + digitVal c4)
      ++ ":" ++ pad2 (10 * digitVal c5 + digitVal c6) ++ ":" ++
      pad2 (10 * digitVal c7 + digitVal c8) ++ " " ++
      pad2 (10 * digitVal c9 + digitVal c10) ++ ":" ++
      pad2 (10 * digitVal c11 + digitVal c12) ++ ":" ++
      pad2 (10 * digitVal c13 + digitVal c14) = s := by simpa using h
  have v1 := digitVal_le d1
  have v2 := digitVal_le d2
  have v3 := digitVal_le d3
  have v4 := digitVal_le d4
  have v5 := digitVal_le d5
  have v6 := digitVal_le d6
  have v7 := digitVal_le d7
  have v8 := digitVal_le d8
  have v9 := digitVal_le d9
  have v10 := digitVal_le d10
  have v11 := digitVal_le d11
  have v12 := digitVal_le d12
  have v13 := digitVal_le d13
  have v14 := digitVal_le d14
  exact pads_shape (by omega) (by omega) (by omega) (by omega) (by omega) (by omega)

theorem searchYear_shape {l : List Char} {s : String} (h : searchYear l = some s) :
    ∃ c1 c2 c3 c4, s = String.mk [c1, c2, c3, c4] ∧ isDig c1 = true ∧ isDig c2 = true ∧
      isDig c3 = true ∧ isDig c4 = true := by
  induction l with
  | nil => simp [searchYear] at h
  | cons c1 t ih =>
    rcases t with _ | ⟨c2, _ | ⟨c3, _ | ⟨c4, rest⟩⟩⟩
    · simp [searchYear] at h
    · simp [searchYear] at h
    · simp [searchYear] at h
    · rw [searchYear] at h
      split at h
      · rename_i hcond
        obtain rfl : String.mk [c1, c2, c3, c4] = s := by simpa using h
        simp only [Bool.and_eq_true, Bool.or_eq_true, decide_eq_true_eq] at hcond
        obtain ⟨⟨h12, h3⟩, h4⟩ := hcond
        rcases h12 with ⟨rfl, rfl⟩ | ⟨rfl, rfl⟩
        · exact ⟨'1', '9', c3, c4, rfl, rfl, rfl, h3, h4⟩
        · exact ⟨'2', '0', c3, c4, rfl, rfl, rfl, h3, h4⟩
      · exact ih h

theorem extract_folder_canonical {p : FPath} {s : String}
    (h : extract_date_from_folder p = some s) :
    isNearCanonicalStamp s = true ∧ s.length = 19 ∧ isCanonicalStamp s = true := by
  rw [extract_date_from_folder] at h
  rcases hy : searchYear p.folder.data with _ | y <;> simp only [hy] at h <;>
    try exact Option.noConfusion h
  obtain rfl : y ++ ":01:01 12:00:00" = s := by simpa using h
  obtain ⟨c1, c2, c3, c4, rfl, e1, e2, e3, e4⟩ := searchYear_shape hy
  have hdata : String.mk [c1, c2, c3, c4] ++ ":01:01 12:00:00" = String.mk
      ([c1, c2, c3, c4] ++
        [':', '0', '1', ':', '0', '1', ' ', '1', '2', ':', '0', '0', ':', '0', '0']) := rfl
  rw [hdata]
  have := stamp_shape [c1, c2, c3, c4]
    [':', '0', '1', ':', '0', '1', ' ', '1', '2', ':', '0', '0', ':', '0', '0']
    (by
      intro c hc
      simp only [List.mem_cons, List.not_mem_nil, or_false] at hc
      rcases hc with rfl | rfl | rfl | rfl
      · exact e1
      · exact e2
      · exact e3
      · exact e4)
    (by simp) (by simp) rfl
  obtain ⟨hnear, hlen15, hcanon⟩ := this
  have hlen : (String.mk ([c1, c2, c3, c4] ++
      [':', '0', '1', ':', '0', '1', ' ', '1', '2', ':', '0', '0', ':', '0', '0'])).length
      = 19 := by
    rw [hlen15]; rfl
  exact ⟨hnear, hlen, hcanon hlen⟩

theorem formattedStep_some {pt : Json} {out : String}
    (h : formattedStep pt = .ok (some out)) :
    ∃ str, parseFormattedCore str = some out := by
  rw [formattedStep] at h
  rcases hin : pyIn "formatted" pt with e | b <;> simp only [hin] at h <;>
    try exact Except.noConfusion h
  cases b
  · simp at h
  · rcases hit : pyGetItem pt "formatted" with e | f <;> simp only [hit] at h <;>
      try exact Except.noConfusion h
    split at h
    · have hp : parse_google_formatted f = some out := by simpa using h
      cases f with
      | str str => exact ⟨str, hp⟩
      | null => exact Option.noConfusion hp
      | bool b' => exact Option.noConfusion hp
      | num q => exact Option.noConfusion hp
      | obj kvs => exact Option.noConfusion hp
    · simp at h

theorem timestampStep_some {pt : Json} {out : String}
    (h : timestampStep pt = .ok (some out)) :
    ∃ n y m d hh mi s, utcFromTimestamp n = some (y, m, d, hh, mi, s) ∧
      out = fmtDT y m d hh mi s := by
  rw [timestampStep] at h
  rcases hin : pyIn "timestamp" pt with e | b <;> simp only [hin] at h <;>
    try exact Except.noConfusion h
  cases b
  · simp at h
  · rcases hit : pyGetItem pt "timestamp" with e | ts <;> simp only [hit] at h <;>
      try exact Except.noConfusion h
    split at h
    · rcases hpi : pyToInt ts with _ | n <;> simp only [hpi] at h <;>
        try exact Except.noConfusion h
      rcases hu : utcFromTimestamp n with _ | ⟨y, m, d, hh, mi, s⟩ <;>
        simp only [hu] at h <;> try exact Except.noConfusion h
      refine ⟨n, y, m, d, hh, mi, s, hu, ?_⟩
      have := h
      simp only [Except.ok.injEq, Option.some.injEq] at this
      exact this.symm
    · simp at h

theorem sidecarDate_some {j : Json} {out : String} (h : sidecarDate j = .ok (some out)) :
    (∃ str, parseFormattedCore str = some out) ∨
    (∃ n y m d hh mi s, utcFromTimestamp n = some (y, m, d, hh, mi, s) ∧
      out = fmtDT y m d hh mi s) := by
  rw [sidecarDate] at h
  split at h
  · rcases hin : pyIn "photoTakenTime" j with e | b <;> simp only [hin] at h <;>
      try exact Except.noConfusion h
    cases b
    · simp at h
    · rcases hit : pyGetItem j "photoTakenTime" with e | pt <;> simp only [hit] at h <;>
        try exact Except.noConfusion h
      rcases hf : formattedStep pt with e | v <;> simp only [hf] at h <;>
        try exact Except.noConfusion h
      rcases v with _ | d
      · exact Or.inr (timestampStep_some h)
      · obtain rfl : d = out := by simpa using h
        exact Or.inl (formattedStep_some hf)
  · simp at h

/-- Counterexample to claim C10.  A valid sidecar `formatted` value whose
year is below 1000 (here `"1 Jan 50 00:00:00"`) resolves to
`"50:01:01 00:00:00"`: the `strftime` directive `%Y` renders the year without zero
padding, so the result has 17 characters and violates the claimed
19-character `YYYY:MM:DD HH:MM:SS` shape. -/
theorem C10_counterexample :
    resolve_date (.obj [("photoTakenTime", .obj [("formatted", .str "1 Jan 50 00:00:00")])])
        ⟨"a.bin", "f"⟩ = .ok (some "50:01:01 00:00:00") ∧
    isCanonicalStamp "50:01:01 00:00:00" = false ∧
    ("50:01:01 00:00:00" : String).length = 17 :=
  ⟨rfl, rfl, rfl⟩

/-- Claim C10 as amended (status: corrected).  Every non-`None` string
produced by `resolve_date` matches the shape `Y⁺:MM:DD HH:MM:SS` where
the year block `Y⁺` holds one to four digits (hence total length 16–19);
the string matches the full 19-character canonical shape exactly when
the year block has four digits — always for the filename and folder
tiers, and for sidecar-derived dates whenever the year is at least 1000,
years below 1000 being rendered unpadded by the `strftime` directive `%Y`. -/
theorem C10_near_canonical (jd : Json) (p : FPath) (s : String)
    (h : resolve_date jd p = .ok (some s)) :
    isNearCanonicalStamp s = true ∧ 16 ≤ s.length ∧ s.length ≤ 19 ∧
      (s.length = 19 → isCanonicalStamp s = true) := by
  rw [resolve_date] at h
  rcases hsd : sidecarDate jd with e | v <;> simp only [hsd] at h <;>
    try exact Except.noConfusion h
  rcases v with _ | d
  · rcases hf : extract_date_from_filename p with _ | d <;> simp only [hf] at h
    · have hfold : extract_date_from_folder p = some s := by simpa using h
      obtain ⟨h1, h2, h3⟩ := extract_folder_canonical hfold
      exact ⟨h1, by omega, by omega, fun _ => h3⟩
    · obtain rfl : d = s := by simpa using h
      obtain ⟨h1, h2, h3⟩ := extract_filename_canonical hf
      exact ⟨h1, by omega, by omega, fun _ => h3⟩
  · obtain rfl : d = s := by simpa using h
    rcases sidecarDate_some hsd with ⟨str, hp⟩ | ⟨n, y, m, dd, hh, mi, sec, hu, rfl⟩
    · obtain ⟨y, m, dd, hh, mi, sec, b1, b2, b3, b4, b5, b6, b7, rfl⟩ :=
        parseFormattedCore_shape hp
      obtain ⟨h1, h2, h3⟩ := fmtDT_shape b1 b2 b3 b4 b5 b6 b7
      have hy1 := showNat_len_pos y
      have hy4 : (showNat y).data.length ≤ 4 := showNat_len_le (by omega) (by omega)
      exact ⟨h1, by omega, by omega, h3⟩
    · obtain ⟨b1, b2, b3, b4, b5, b6, b7⟩ := utcFromTimestamp_shape hu
      obtain ⟨h1, h2, h3⟩ := fmtDT_shape b1 b2 b3 b4 b5 b6 b7
      have hy1 := showNat_len_pos y
      have hy4 : (showNat y).data.length ≤ 4 := showNat_len_le (by omega) (by omega)
      exact ⟨h1, by omega, by omega, h3⟩

/-- Witness for the amended C10 theorem: the folder-tier output for a
folder named `2019` has the claimed shape. -/
theorem C10_witness :
    isNearCanonicalStamp "2019:01:01 12:00:00" = true ∧
    16 ≤ ("2019:01:01 12:00:00" : String).length ∧
    ("2019:01:01 12:00:00" : String).length ≤ 19 ∧
    (("2019:01:01 12:00:00" : String).length = 19 →
      isCanonicalStamp "2019:01:01 12:00:00" = true) :=
  C10_near_canonical .null ⟨"x.bin", "2019"⟩ "2019:01:01 12:00:00" rfl

end Takeout
